import Mathlib

/-!
Shallow embedding of the lognorth-sdk-go delivery core: the event model,
the shared delivery state (buffer, flush timer, backoff deadline, adaptive
flush interval), the enqueue/flush/send operations of the struct-based
handler variant, the package-global send of the early variant, and the
error-classification context construction.
-/

namespace LogNorth

/-- Values stored in a Go `map[string]any` context: strings, integers,
a Go `error` value (carrying its message), or anything else. -/
inductive GoVal
  | str (s : String)
  | int (n : Int)
  | errv (msg : String)
  | other
deriving DecidableEq, Repr

/-- A Go `map[string]any`, modelled as an association list; the map
operations below respect Go map semantics (unique observable keys). -/
abbrev Ctx := List (String × GoVal)

/-- Go map assignment `m[k] = v`: replace the first binding of `k`, or
append a new binding. -/
def ctxSet : Ctx → String → GoVal → Ctx
  | [], k, v => [(k, v)]
  | kv :: rest, k, v =>
      if kv.1 = k then (k, v) :: rest else kv :: ctxSet rest k v

/-- Go map lookup `m[k]`. -/
def ctxGet : Ctx → String → Option GoVal
  | [], _ => none
  | kv :: rest, k => if kv.1 = k then some kv.2 else ctxGet rest k

/-- Go map membership `_, ok := m[k]`. -/
def ctxContains (c : Ctx) (k : String) : Bool :=
  (ctxGet c k).isSome

/-- Go map deletion `delete(m, k)`. -/
def ctxErase : Ctx → String → Ctx
  | [], _ => []
  | kv :: rest, k =>
      if kv.1 = k then ctxErase rest k else kv :: ctxErase rest k

/-- The `event` struct of the struct-based handler variant: message,
RFC3339 timestamp, optional error type and location (empty string when
absent, matching the Go zero value with `omitempty`), and the context map. -/
structure Event where
  message : String
  timestamp : String
  errorType : String
  errorLocation : String
  context : Ctx
deriving DecidableEq, Repr

/-- The `event` struct of the package-global classifier variant: only
message, timestamp and context; it has no top-level error fields at all. -/
structure EventG where
  message : String
  timestamp : String
  context : Ctx
deriving DecidableEq, Repr

/-- The `Config` struct: API key, endpoint, batch size, flush interval
(nanoseconds, as Go `time.Duration`), maximum buffer size. -/
structure Config where
  apiKey : String
  endpoint : String
  batchSize : Nat
  flushInterval : Nat
  maxBufferSize : Nat
deriving DecidableEq, Repr

/-- `time.Minute` in nanoseconds. -/
def minuteNs : Nat := 60 * 1000000000

/-- `5 * time.Second` in nanoseconds. -/
def fiveSecNs : Nat := 5 * 1000000000

/-- The zero-value defaulting performed at the top of `NewHandler`:
BatchSize 10, FlushInterval 5s, MaxBufferSize 1000. -/
def applyDefaults (cfg : Config) : Config :=
  { cfg with
    batchSize := if cfg.batchSize = 0 then 10 else cfg.batchSize,
    flushInterval := if cfg.flushInterval = 0 then fiveSecNs else cfg.flushInterval,
    maxBufferSize := if cfg.maxBufferSize = 0 then 1000 else cfg.maxBufferSize }

/-- The shared `state` struct guarded by the mutex: the event buffer
(oldest first), whether a flush timer is pending (`flushTimer != nil`),
the backoff deadline, and the adaptive flush interval. Times and
durations are nanosecond counts. -/
structure HState where
  buffer : List Event
  timerSet : Bool
  backoffUntil : Nat
  flushInterval : Nat
deriving DecidableEq, Repr

/-- The state built by `NewHandler`: empty buffer, no timer, zero
backoff deadline, flush interval at the (defaulted) configured baseline. -/
def newHandlerState (cfg : Config) : HState :=
  { buffer := [], timerSet := false, backoffUntil := 0,
    flushInterval := (applyDefaults cfg).flushInterval }

/-- The eviction loop inside `enqueue`: remove the first (oldest) buffer
entry whose ErrorType is empty; leave the buffer unchanged when every
entry carries an error type. -/
def dropOldestNonError : List Event → List Event
  | [] => []
  | ev :: rest =>
      if ev.errorType = "" then rest else ev :: dropOldestNonError rest

/-- The `enqueue` method: evict when at capacity, append the event,
schedule a deferred flush timer when none is pending, and trigger an
asynchronous flush when the buffer has reached the batch threshold.
Returns the new state, whether a timer was newly scheduled, and whether
an asynchronous flush was triggered. -/
def enqueue (cfg : Config) (st : HState) (e : Event) : HState × Bool × Bool :=
  let buf0 := if cfg.maxBufferSize ≤ st.buffer.length
              then dropOldestNonError st.buffer else st.buffer
  let buf := buf0 ++ [e]
  ({ st with buffer := buf, timerSet := true },
   !st.timerSet,
   decide (cfg.batchSize ≤ buf.length))

/-- A sequence of `enqueue` calls; the second component counts how many
of them triggered an asynchronous flush. -/
def enqueueMany (cfg : Config) : HState → List Event → HState × Nat
  | st, [] => (st, 0)
  | st, e :: rest =>
      let r := enqueue cfg st e
      let r2 := enqueueMany cfg r.1 rest
      (r2.1, (if r.2.2 = true then 1 else 0) + r2.2)

/-- The `Flush` method up to the point it releases the lock: a no-op on
an empty buffer; otherwise it cancels the pending timer, swaps the buffer
out for an empty one, and hands the drained batch to `send`. The second
component is the batch passed to `send` (none when no send happens). -/
def flush (cfg : Config) (st : HState) : HState × Option (List Event) :=
  if st.buffer = [] then (st, none)
  else ({ st with buffer := [], timerSet := false }, some st.buffer)

/-- Outcome of one HTTP attempt: a transport failure (no response) or a
response with the given status code. -/
inductive Attempt
  | transportErr
  | status (code : Nat)
deriving DecidableEq, Repr

/-- The response handling of one iteration of the retry loop in the
struct-based `send`: status below 300 decays the flush interval toward
the configured baseline and returns; status 429 doubles the interval
capped at one minute and sets the backoff deadline to now plus the new
interval; every other outcome leaves the state unchanged. The Bool is
whether `send` returns (success). -/
def stepResp (cfg : Config) (now : Nat) (a : Attempt) (st : HState) : HState × Bool :=
  match a with
  | .transportErr => (st, false)
  | .status c =>
      if c < 300 then
        ({ st with flushInterval := max cfg.flushInterval (st.flushInterval * 9 / 10) }, true)
      else if c = 429 then
        ({ st with
            flushInterval := min (st.flushInterval * 2) minuteNs,
            backoffUntil := now + min (st.flushInterval * 2) minuteNs }, false)
      else (st, false)

/-- The retry loop of the struct-based `send`, starting at attempt index
i with the given number of attempts remaining; env yields for each
attempt index the current time and the outcome of the HTTP request.
Returns the final state and the number of HTTP requests issued. -/
def sendFrom (cfg : Config) (env : Nat → Nat × Attempt) : Nat → HState → Nat → HState × Nat
  | _, st, 0 => (st, 0)
  | i, st, fuel + 1 =>
      let na := env i
      let r := stepResp cfg na.1 na.2 st
      if r.2 then (r.1, 1)
      else
        let rest := sendFrom cfg env (i + 1) r.1 fuel
        (rest.1, rest.2 + 1)

/-- The struct-based `send`: early return on an empty batch, then the
retry loop over attempts 0 through retries. -/
def send (cfg : Config) (events : List Event) (env : Nat → Nat × Attempt)
    (retries : Nat) (st : HState) : HState × Nat :=
  if events = [] then (st, 0) else sendFrom cfg env 0 st (retries + 1)

/-- A `Flush` followed by the `send` it performs (routine retry budget 1,
meaning up to two attempts in the loop body of the struct variant; the
budget value does not matter for the empty-buffer claims). Returns the
final state and the number of HTTP requests issued. -/
def flushAndSend (cfg : Config) (env : Nat → Nat × Attempt) (st : HState) : HState × Nat :=
  let r := flush cfg st
  match r.2 with
  | none => (r.1, 0)
  | some evs => send cfg evs env 1 r.1

/-- The package-global delivery state of the early variant: buffer,
pending timer, backoff deadline. -/
structure PkgState where
  buffer : List Event
  timerSet : Bool
  backoff : Nat
deriving DecidableEq, Repr

/-- The package-global `send(events, isError)`: no-op on an empty batch
or empty endpoint; drop silently while backed off; otherwise issue one
HTTP request. On transport failure, requeue the batch to the front of
the shared buffer only on the error path. On status 429, set the backoff
deadline to now plus five seconds and requeue only on the routine path.
Returns the new state and the number of HTTP requests issued. -/
def sendPkg (cfg : Config) (events : List Event) (isError : Bool) (now : Nat)
    (outcome : Attempt) (st : PkgState) : PkgState × Nat :=
  if events = [] ∨ cfg.endpoint = "" then (st, 0)
  else if now < st.backoff then (st, 0)
  else
    match outcome with
    | .transportErr =>
        (if isError then { st with buffer := events ++ st.buffer } else st, 1)
    | .status c =>
        if c = 429 then
          ({ st with
              backoff := now + fiveSecNs,
              buffer := if isError then st.buffer else events ++ st.buffer }, 1)
        else (st, 1)

/-- The error-class computation in the package-global `Error`: the
default class is the string error; when the reflected type name is
available, strip one leading asterisk from it. The argument is none when
the error value has no reflectable type. -/
def classOf : Option String → String
  | none => "error"
  | some s => if s.startsWith "*" then s.drop 1 else s

/-- The package-global `Error(message, err, ctx)` of the classifier
variant, with the results of the runtime introspection supplied as
arguments: it stores the error message, the error class, the caller
file basename, line and function name (when introspection succeeded),
and the stack capture, all as keys of the context map, and builds an
event with no top-level error fields. -/
def errorEvent (message ts errMsg : String) (errClassRaw : Option String)
    (callerOk : Bool) (fileBase : String) (line : Int) (fnLast : Option String)
    (stack : String) (ctx0 : Ctx) : EventG :=
  let c1 := ctxSet ctx0 "error" (GoVal.str errMsg)
  let c2 := ctxSet c1 "error_class" (GoVal.str (classOf errClassRaw))
  let c3 :=
    if callerOk then
      let ca := ctxSet c2 "error_file" (GoVal.str fileBase)
      let cb := ctxSet ca "error_line" (GoVal.int line)
      match fnLast with
      | some f => ctxSet cb "error_caller" (GoVal.str f)
      | none => cb
    else c2
  let c4 := ctxSet c3 "stack_trace" (GoVal.str stack)
  { message := message, timestamp := ts, context := c4 }

/-- The first block of the struct-variant `Handle` error extraction:
when the value under key error is a Go error value, replace it by its
message string. -/
def normalizeErrVal (c : Ctx) : Ctx :=
  match ctxGet c "error" with
  | some (GoVal.errv m) => ctxSet c "error" (GoVal.str m)
  | _ => c

/-- The repeated pattern of the struct-variant `Handle`: when the value
under key k is a string, delete the key from the context and return the
string; otherwise leave the context alone and return the empty string
(the Go zero value of the target field). -/
def hoistKey (c : Ctx) (k : String) : Ctx × String :=
  match ctxGet c k with
  | some (GoVal.str s) => (ctxErase c k, s)
  | _ => (c, "")

/-- The error-info extraction block of the struct-variant `Handle`:
replace a Go error value under key error by its message; hoist a string
value under key error_type into the top-level ErrorType field, deleting
the context key; likewise for error_location into ErrorLocation.
Returns the resulting context, ErrorType and ErrorLocation. -/
def extractErrorInfo (c : Ctx) : Ctx × String × String :=
  let c0 := normalizeErrVal c
  let p1 := hoistKey c0 "error_type"
  let p2 := hoistKey p1.1 "error_location"
  (p2.1, p1.2, p2.2)

/-- States of the Shared Delivery State reachable from construction by
the operations of the struct-based handler: enqueue, flush, and any run
of the send retry loop. -/
inductive Reachable (cfg : Config) : HState → Prop
  | init : Reachable cfg (newHandlerState cfg)
  | enq (st : HState) (e : Event) :
      Reachable cfg st → Reachable cfg (enqueue cfg st e).1
  | fl (st : HState) :
      Reachable cfg st → Reachable cfg (flush cfg st).1
  | snd (st : HState) (env : Nat → Nat × Attempt) (i fuel : Nat) :
      Reachable cfg st → Reachable cfg (sendFrom cfg env i st fuel).1

/-- The adaptive flush interval stays between the configured baseline
and one minute. -/
def intervalInv (cfg : Config) (st : HState) : Prop :=
  cfg.flushInterval ≤ st.flushInterval ∧ st.flushInterval ≤ minuteNs

/-- A sample configuration with every field explicit. -/
def cfgEx : Config :=
  { apiKey := "test-key", endpoint := "https://logs.example.com",
    batchSize := 10, flushInterval := fiveSecNs, maxBufferSize := 1000 }

/-- A sample configuration whose buffer capacity is one. -/
def cfgC6 : Config :=
  { apiKey := "test-key", endpoint := "https://logs.example.com",
    batchSize := 10, flushInterval := fiveSecNs, maxBufferSize := 1 }

/-- A routine sample event. -/
def evR : Event :=
  { message := "User signed up", timestamp := "2026-01-01T00:00:00Z",
    errorType := "", errorLocation := "",
    context := [("user_id", GoVal.int 123)] }

/-- An error sample event. -/
def evE : Event :=
  { message := "Checkout failed", timestamp := "2026-01-01T00:00:00Z",
    errorType := "Error", errorLocation := "",
    context := [("order_id", GoVal.int 42)] }

/-- A sample delivery state: empty buffer, no timer, no backoff, the
flush interval at the five-second baseline. -/
def stEx : HState :=
  { buffer := [], timerSet := false, backoffUntil := 0,
    flushInterval := fiveSecNs }

/-- A sample delivery state whose backoff deadline is set to 100. -/
def stB : HState :=
  { buffer := [], timerSet := false, backoffUntil := 100,
    flushInterval := fiveSecNs }

/-- A sample delivery state at capacity for cfgC6, holding one error
event. -/
def stC6 : HState :=
  { buffer := [evE], timerSet := true, backoffUntil := 0,
    flushInterval := fiveSecNs }

/-- A sample package-global state holding one buffered routine event. -/
def pstEx : PkgState :=
  { buffer := [evR], timerSet := false, backoff := 0 }

/-- An environment in which every HTTP attempt is answered with
status 500. -/
def env500 : Nat → Nat × Attempt := fun _ => (0, Attempt.status 500)

/-- An environment in which every HTTP attempt is answered with
status 200. -/
def env200 : Nat → Nat × Attempt := fun _ => (0, Attempt.status 200)

/-- An environment in which every HTTP attempt fails at the transport
layer, receiving no response. -/
def envFail : Nat → Nat × Attempt := fun _ => (0, Attempt.transportErr)

/-- Three routine sample events. -/
def esW7 : List Event := [evR, evR, evR]

lemma ctxGet_set_self (c : Ctx) (k : String) (v : GoVal) :
    ctxGet (ctxSet c k v) k = some v := by
  induction c with
  | nil => simp [ctxSet, ctxGet]
  | cons kv rest ih =>
      by_cases h : kv.1 = k
      · simp [ctxSet, ctxGet, h]
      · simp [ctxSet, ctxGet, h, ih]

lemma ctxGet_set_ne (c : Ctx) (k' k : String) (v : GoVal) (h : k' ≠ k) :
    ctxGet (ctxSet c k' v) k = ctxGet c k := by
  induction c with
  | nil => simp [ctxSet, ctxGet, h]
  | cons kv rest ih =>
      by_cases h2 : kv.1 = k'
      · simp [ctxSet, ctxGet, h2, h]
      · simp only [ctxSet, ctxGet, h2, if_neg]
        by_cases h3 : kv.1 = k
        · simp [ctxGet, h3]
        · simp [ctxGet, h3, ih]

lemma ctxGet_erase_self (c : Ctx) (k : String) :
    ctxGet (ctxErase c k) k = none := by
  induction c with
  | nil => simp [ctxErase, ctxGet]
  | cons kv rest ih =>
      by_cases h : kv.1 = k
      · simp [ctxErase, h, ih]
      · simp [ctxErase, ctxGet, h, ih]

lemma ctxGet_erase_ne (c : Ctx) (k' k : String) (h : k' ≠ k) :
    ctxGet (ctxErase c k') k = ctxGet c k := by
  induction c with
  | nil => simp [ctxErase]
  | cons kv rest ih =>
      by_cases h2 : kv.1 = k'
      · have h3 : kv.1 ≠ k := by
          rw [h2]; exact h
        simp only [ctxErase, if_pos h2, ctxGet, if_neg h3]
        exact ih
      · by_cases h3 : kv.1 = k
        · simp only [ctxErase, if_neg h2, ctxGet, if_pos h3]
        · simp only [ctxErase, if_neg h2, ctxGet, if_neg h3]
          exact ih

lemma dropOldestNonError_of_all_error (l : List Event)
    (h : ∀ x ∈ l, x.errorType ≠ "") : dropOldestNonError l = l := by
  induction l with
  | nil => rfl
  | cons ev rest ih =>
      have hev : ev.errorType ≠ "" := h ev (List.mem_cons_self ev rest)
      simp only [dropOldestNonError, if_neg hev]
      rw [ih fun x hx => h x (List.mem_cons_of_mem ev hx)]

lemma dropOldestNonError_decomp (l : List Event)
    (h : ∃ x ∈ l, x.errorType = "") :
    ∃ pre ev post, l = pre ++ ev :: post ∧ ev.errorType = "" ∧
      (∀ x ∈ pre, x.errorType ≠ "") ∧ dropOldestNonError l = pre ++ post := by
  induction l with
  | nil => simp at h
  | cons e rest ih =>
      by_cases he : e.errorType = ""
      · exact ⟨[], e, rest, by simp, he, by simp, by simp [dropOldestNonError, he]⟩
      · have hrest : ∃ x ∈ rest, x.errorType = "" := by
          rcases h with ⟨x, hx, hxe⟩
          rcases List.mem_cons.mp hx with h1 | h2
          · exact absurd (h1 ▸ hxe) he
          · exact ⟨x, h2, hxe⟩
        rcases ih hrest with ⟨pre, ev, post, hsplit, heve, hpre, hdrop⟩
        refine ⟨e :: pre, ev, post, by simp [hsplit], heve, ?_, ?_⟩
        · intro x hx
          rcases List.mem_cons.mp hx with h1 | h2
          · rw [h1]; exact he
          · exact hpre x h2
        · simp [dropOldestNonError, he, hdrop]

lemma stepResp_buffer_timer (cfg : Config) (now : Nat) (a : Attempt) (st : HState) :
    (stepResp cfg now a st).1.buffer = st.buffer ∧
    (stepResp cfg now a st).1.timerSet = st.timerSet := by
  cases a with
  | transportErr => exact ⟨rfl, rfl⟩
  | status c =>
      by_cases h1 : c < 300
      · simp [stepResp, h1]
      · by_cases h2 : c = 429 <;> simp [stepResp, h1, h2]

lemma sendFrom_buffer_timer (cfg : Config) (env : Nat → Nat × Attempt) :
    ∀ (fuel i : Nat) (st : HState),
      (sendFrom cfg env i st fuel).1.buffer = st.buffer ∧
      (sendFrom cfg env i st fuel).1.timerSet = st.timerSet := by
  intro fuel
  induction fuel with
  | zero => intro i st; exact ⟨rfl, rfl⟩
  | succ n ih =>
      intro i st
      simp only [sendFrom]
      by_cases hr : (stepResp cfg (env i).1 (env i).2 st).2 = true
      · simp only [hr, if_pos]
        exact stepResp_buffer_timer cfg (env i).1 (env i).2 st
      · simp only [hr]
        rcases ih (i + 1) (stepResp cfg (env i).1 (env i).2 st).1 with ⟨hb, ht⟩
        rcases stepResp_buffer_timer cfg (env i).1 (env i).2 st with ⟨hb2, ht2⟩
        simp [hb, ht, hb2, ht2]

lemma ctxGet_normalize_ne (c : Ctx) (k : String) (h : "error" ≠ k) :
    ctxGet (normalizeErrVal c) k = ctxGet c k := by
  unfold normalizeErrVal
  rcases h0 : ctxGet c "error" with _ | v
  · rfl
  · cases v with
    | errv m => exact ctxGet_set_ne c "error" k (GoVal.str m) h
    | str s => rfl
    | int n => rfl
    | other => rfl

lemma hoistKey_of_str (c : Ctx) (k : String) (s : String)
    (h : ctxGet c k = some (GoVal.str s)) :
    hoistKey c k = (ctxErase c k, s) := by
  unfold hoistKey
  rw [h]

lemma ctxGet_hoistKey_ne (c : Ctx) (k' k : String) (h : k' ≠ k) :
    ctxGet (hoistKey c k').1 k = ctxGet c k := by
  unfold hoistKey
  rcases h0 : ctxGet c k' with _ | v
  · rfl
  · cases v with
    | str s => exact ctxGet_erase_ne c k' k h
    | int n => rfl
    | errv m => rfl
    | other => rfl

lemma extract_hoists (c : Ctx) (s : String)
    (h : ctxGet c "error_type" = some (GoVal.str s)) :
    (extractErrorInfo c).2.1 = s ∧
    ctxContains (extractErrorInfo c).1 "error_type" = false := by
  have h0 : ctxGet (normalizeErrVal c) "error_type" = some (GoVal.str s) := by
    rw [ctxGet_normalize_ne c "error_type" (by decide)]
    exact h
  unfold extractErrorInfo
  dsimp only
  rw [hoistKey_of_str _ _ _ h0]
  constructor
  · rfl
  · show (ctxGet (hoistKey (ctxErase (normalizeErrVal c) "error_type") "error_location").1
      "error_type").isSome = false
    rw [ctxGet_hoistKey_ne _ _ _ (by decide), ctxGet_erase_self]
    rfl

lemma enqueue_buffer_of_not_full (cfg : Config) (st : HState) (e : Event)
    (h : st.buffer.length < cfg.maxBufferSize) :
    (enqueue cfg st e).1.buffer = st.buffer ++ [e] := by
  simp only [enqueue, if_neg (Nat.not_le.mpr h)]

lemma enqueue_flushInterval (cfg : Config) (st : HState) (e : Event) :
    (enqueue cfg st e).1.flushInterval = st.flushInterval := rfl

lemma enqueueMany_no_trigger (cfg : Config) (es : List Event) :
    ∀ st : HState, cfg.batchSize ≤ cfg.maxBufferSize →
      st.buffer.length + es.length < cfg.batchSize →
      (enqueueMany cfg st es).2 = 0 ∧
      (enqueueMany cfg st es).1.buffer.length = st.buffer.length + es.length := by
  induction es with
  | nil =>
      intro st h1 h2
      exact ⟨rfl, by simp [enqueueMany]⟩
  | cons e rest ih =>
      intro st h1 h2
      simp only [List.length_cons] at h2
      have hlt : st.buffer.length < cfg.maxBufferSize := by omega
      have hbuf := enqueue_buffer_of_not_full cfg st e hlt
      have hlen : (enqueue cfg st e).1.buffer.length = st.buffer.length + 1 := by
        rw [hbuf]; simp
      have htrig : (enqueue cfg st e).2.2 = false := by
        simp only [enqueue, if_neg (Nat.not_le.mpr hlt)]
        simp only [List.length_append, List.length_cons, List.length_nil]
        exact decide_eq_false (by omega)
      rcases ih (enqueue cfg st e).1 h1 (by rw [hlen]; omega) with ⟨ht, hl⟩
      simp only [enqueueMany]
      refine ⟨?_, ?_⟩
      · rw [htrig, ht]
        simp
      · rw [hl, hlen]
        simp only [List.length_cons]
        omega

lemma send_buffer (cfg : Config) (events : List Event) (env : Nat → Nat × Attempt)
    (retries : Nat) (st : HState) :
    (send cfg events env retries st).1.buffer = st.buffer := by
  unfold send
  by_cases h : events = []
  · rw [if_pos h]
  · rw [if_neg h]
    exact (sendFrom_buffer_timer cfg env (retries + 1) 0 st).1

lemma stepResp_interval (cfg : Config) (hc : cfg.flushInterval ≤ minuteNs)
    (now : Nat) (a : Attempt) (st : HState) (hst : intervalInv cfg st) :
    intervalInv cfg (stepResp cfg now a st).1 := by
  rcases hst with ⟨h1, h2⟩
  cases a with
  | transportErr => exact ⟨h1, h2⟩
  | status c =>
      by_cases hc1 : c < 300
      · simp only [stepResp, if_pos hc1]
        exact ⟨le_max_left _ _, max_le hc (le_trans (by omega) h2)⟩
      · by_cases hc2 : c = 429
        · simp only [stepResp, if_neg hc1, if_pos hc2]
          exact ⟨le_min (by omega) hc, min_le_right _ _⟩
        · simp only [stepResp, if_neg hc1, if_neg hc2]
          exact ⟨h1, h2⟩

lemma sendFrom_interval (cfg : Config) (hc : cfg.flushInterval ≤ minuteNs)
    (env : Nat → Nat × Attempt) :
    ∀ (fuel i : Nat) (st : HState), intervalInv cfg st →
      intervalInv cfg (sendFrom cfg env i st fuel).1 := by
  intro fuel
  induction fuel with
  | zero => intro i st hst; exact hst
  | succ n ih =>
      intro i st hst
      simp only [sendFrom]
      by_cases hr : (stepResp cfg (env i).1 (env i).2 st).2 = true
      · simp only [hr, if_pos]
        exact stepResp_interval cfg hc (env i).1 (env i).2 st hst
      · simp only [hr]
        simp only [Bool.false_eq_true, if_false]
        exact ih (i + 1) _ (stepResp_interval cfg hc (env i).1 (env i).2 st hst)

/-- C2 counterexample: a response with status 503 neither widens the
flush interval nor sets the backoff deadline — the claim states that a
503 doubles the interval (capped at one minute) and sets the deadline to
now plus the new interval, which fails at this concrete input. -/
theorem C2_counterexample :
    (stepResp cfgEx 0 (Attempt.status 503) stEx).1.flushInterval ≠
      min (stEx.flushInterval * 2) minuteNs ∧
    (stepResp cfgEx 0 (Attempt.status 503) stEx).1.backoffUntil ≠
      0 + min (stEx.flushInterval * 2) minuteNs := by
  refine ⟨?_, ?_⟩ <;> decide

/-- C2 amended: only a response with status 429 widens the current flush
interval by doubling it capped at one minute and sets the shared backoff
deadline to the current time plus the new interval, with the retry loop
then continuing; a 503 response leaves the interval and the deadline
unchanged. -/
theorem C2_backoff_only_on_429 (cfg : Config) (now : Nat) (st : HState) :
    stepResp cfg now (Attempt.status 429) st =
      ({ st with
          flushInterval := min (st.flushInterval * 2) minuteNs,
          backoffUntil := now + min (st.flushInterval * 2) minuteNs }, false) ∧
    stepResp cfg now (Attempt.status 503) st = (st, false) := by
  constructor
  · simp [stepResp]
  · simp [stepResp]

/-- C3 counterexample: with a retry budget of one (two attempts) and
every attempt answered with status 500, the send loop issues two HTTP
requests, not the single one the claim predicts (the claim says the call
stops attempting immediately after a non-429 non-2xx status). -/
theorem C3_counterexample :
    (sendFrom cfgEx env500 0 stEx 2).2 = 2 ∧
    (sendFrom cfgEx env500 0 stEx 2).2 ≠ 1 := by
  refine ⟨?_, ?_⟩ <;> decide

/-- C3 amended: a non-success status other than 429 (for example 500)
neither widens the flush interval nor sets the backoff deadline, but it
does not abort the call: the loop keeps retrying until the attempt
budget is exhausted, issuing one request per remaining attempt. -/
theorem C3_other_status_retried (cfg : Config) (now : Nat) (st : HState) (c : Nat)
    (h1 : 300 ≤ c) (h2 : c ≠ 429) :
    stepResp cfg now (Attempt.status c) st = (st, false) ∧
    (∀ (env : Nat → Nat × Attempt) (st2 : HState) (i fuel : Nat),
      (∀ j, (env j).2 = Attempt.status c) →
      sendFrom cfg env i st2 fuel = (st2, fuel)) := by
  have hstep : ∀ (t : Nat) (s : HState),
      stepResp cfg t (Attempt.status c) s = (s, false) := by
    intro t s
    simp only [stepResp, if_neg (by omega : ¬ c < 300), if_neg h2]
  refine ⟨hstep now st, ?_⟩
  intro env st2 i fuel henv
  induction fuel generalizing i st2 with
  | zero => rfl
  | succ n ih =>
      simp only [sendFrom]
      rw [show stepResp cfg (env i).1 (env i).2 st2 = (st2, false) from by
        rw [henv i]; exact hstep _ _]
      simp only [Bool.false_eq_true, if_false]
      rw [ih]

/-- C3 witness: with status 500 on every attempt and a budget of two
retries (three attempts), the loop issues exactly three requests and the
delivery state is unchanged. -/
theorem C3_witness :
    sendFrom cfgEx env500 0 stEx 3 = (stEx, 3) :=
  (C3_other_status_retried cfgEx 0 stEx 500 (by decide) (by decide)).2
    env500 stEx 0 3 (fun _ => rfl)

/-- C4 counterexample: a success response returns from the send loop but
does not clear the backoff deadline — starting from a state whose
deadline is 100, a 200 response leaves the deadline at 100, while the
claim states success clears any backoff deadline. -/
theorem C4_counterexample :
    (stepResp cfgEx 7 (Attempt.status 200) stB).2 = true ∧
    (stepResp cfgEx 7 (Attempt.status 200) stB).1.backoffUntil = 100 ∧
    (stepResp cfgEx 7 (Attempt.status 200) stB).1.backoffUntil ≠ 0 := by
  refine ⟨?_, ?_, ?_⟩ <;> decide

/-- C4 amended: a status in the 200 to 299 range shrinks the flush
interval by the fixed nine-tenths decay, never below the configured
baseline, and makes the call return without further attempts; the
backoff deadline is left unchanged, not cleared. -/
theorem C4_success_decays_interval (cfg : Config) (now : Nat) (st : HState) (c : Nat)
    (h1 : 200 ≤ c) (h2 : c ≤ 299) :
    stepResp cfg now (Attempt.status c) st =
      ({ st with flushInterval := max cfg.flushInterval (st.flushInterval * 9 / 10) }, true) ∧
    cfg.flushInterval ≤ (stepResp cfg now (Attempt.status c) st).1.flushInterval ∧
    (cfg.flushInterval ≤ st.flushInterval →
      (stepResp cfg now (Attempt.status c) st).1.flushInterval ≤ st.flushInterval) ∧
    (stepResp cfg now (Attempt.status c) st).1.backoffUntil = st.backoffUntil ∧
    (∀ (env : Nat → Nat × Attempt) (st2 : HState) (i fuel t : Nat),
      env i = (t, Attempt.status c) →
      sendFrom cfg env i st2 (fuel + 1) =
        ({ st2 with flushInterval := max cfg.flushInterval (st2.flushInterval * 9 / 10) }, 1)) := by
  have hstep : ∀ (t : Nat) (s : HState),
      stepResp cfg t (Attempt.status c) s =
        ({ s with flushInterval := max cfg.flushInterval (s.flushInterval * 9 / 10) }, true) := by
    intro t s
    simp only [stepResp, if_pos (by omega : c < 300)]
  refine ⟨hstep now st, ?_, ?_, ?_, ?_⟩
  · rw [hstep]
    exact le_max_left _ _
  · intro hle
    rw [hstep]
    exact max_le hle (by omega)
  · rw [hstep]
  · intro env st2 i fuel t henv
    simp only [sendFrom]
    rw [show stepResp cfg (env i).1 (env i).2 st2 =
        ({ st2 with flushInterval := max cfg.flushInterval (st2.flushInterval * 9 / 10) }, true) from by
      rw [henv]; exact hstep _ _]
    rfl

/-- C4 witness: with a 200 response on the first attempt, a three-attempt
send from the sample state with deadline 100 performs one request and
decays the interval. -/
theorem C4_witness :
    sendFrom cfgEx env200 0 stB 3 =
      ({ stB with flushInterval := max cfgEx.flushInterval (stB.flushInterval * 9 / 10) }, 1) :=
  (C4_success_decays_interval cfgEx 0 stB 200 (by decide) (by decide)).2.2.2.2
    env200 stB 0 2 0 rfl

/-- C5 counterexample: in the struct-based variant, the high-priority
error path hands a single event to send with retry budget three; when
all four attempts fail at the transport layer the batch is dropped, not
requeued — the shared buffer is unchanged, contradicting the claim that
every error-path send call exhausting its attempts on transport failures
requeues the batch to the front of the buffer. -/
theorem C5_counterexample :
    (send cfgEx [evE] envFail 3 stEx).1.buffer ≠ [evE] ++ stEx.buffer ∧
    (send cfgEx [evE] envFail 3 stEx).1.buffer = stEx.buffer := by
  refine ⟨?_, ?_⟩ <;> decide

/-- C5 amended: the requeue-iff-error-path behavior holds only of the
package-global variant: there a transport failure on its (single, hence
final) attempt past the backoff gate prepends the batch to the front of
the shared buffer ahead of the events already waiting if and only if the
call is the high-priority error path, the routine path dropping the
batch, with exactly one HTTP request issued; the struct-based variant's
send never writes the buffer at all, so there an exhausted call drops
the batch on both paths. -/
theorem C5_transport_failure_requeue (cfg : Config) (events : List Event) (isError : Bool)
    (now : Nat) (st : PkgState)
    (hne : events ≠ []) (hep : cfg.endpoint ≠ "") (hbk : ¬ now < st.backoff) :
    (∀ (st2 : HState) (env : Nat → Nat × Attempt) (retries : Nat),
      (send cfg events env retries st2).1.buffer = st2.buffer) ∧
    (sendPkg cfg events isError now Attempt.transportErr st).2 = 1 ∧
    (isError = true →
      (sendPkg cfg events isError now Attempt.transportErr st).1.buffer = events ++ st.buffer) ∧
    (isError = false →
      (sendPkg cfg events isError now Attempt.transportErr st).1.buffer = st.buffer) ∧
    ((sendPkg cfg events isError now Attempt.transportErr st).1.buffer = events ++ st.buffer
      ↔ isError = true) := by
  have hcond : ¬ (events = [] ∨ cfg.endpoint = "") := by
    rintro (h | h)
    · exact hne h
    · exact hep h
  have hreq : (sendPkg cfg events isError now Attempt.transportErr st).2 = 1 := by
    simp [sendPkg, if_neg hcond, if_neg hbk]
  have htrue : isError = true →
      (sendPkg cfg events isError now Attempt.transportErr st).1.buffer =
        events ++ st.buffer := by
    intro h
    subst h
    simp [sendPkg, if_neg hcond, if_neg hbk]
  have hfalse : isError = false →
      (sendPkg cfg events isError now Attempt.transportErr st).1.buffer = st.buffer := by
    intro h
    subst h
    simp [sendPkg, if_neg hcond, if_neg hbk]
  refine ⟨fun st2 env retries => send_buffer cfg events env retries st2,
    hreq, htrue, hfalse, ?_, ?_⟩
  · intro hcontra
    by_contra hne2
    have hf : isError = false := by
      cases isError
      · rfl
      · exact absurd rfl hne2
    rw [hfalse hf] at hcontra
    have hlen := congrArg List.length hcontra
    simp only [List.length_append] at hlen
    exact hne (List.length_eq_zero.mp (by omega))
  · intro h
    exact htrue h

/-- C5 witness: in the package-global variant, an error-path transport
failure at a concrete state requeues the failed event ahead of the
waiting routine event. -/
theorem C5_witness :
    (sendPkg cfgEx [evE] true 5 Attempt.transportErr pstEx).1.buffer = [evE] ++ pstEx.buffer :=
  (C5_transport_failure_requeue cfgEx [evE] true 5 pstEx (by decide) (by decide)
    (by decide)).2.2.1 rfl

/-- C6: enqueuing into a buffer at (or beyond) the configured maximum
capacity evicts the oldest entry without an error type before appending
the new event, keeping the length constant; entries carrying an error
type are never evicted; when every entry carries an error type the new
event is appended anyway, and the buffer can only grow past capacity in
that all-error case. -/
theorem C6_eviction_preserves_errors (cfg : Config) (st : HState) (e : Event)
    (hfull : cfg.maxBufferSize ≤ st.buffer.length) :
    ((∀ x ∈ st.buffer, x.errorType ≠ "") →
      (enqueue cfg st e).1.buffer = st.buffer ++ [e]) ∧
    ((∃ x ∈ st.buffer, x.errorType = "") →
      ∃ pre ev post, st.buffer = pre ++ ev :: post ∧ ev.errorType = "" ∧
        (∀ x ∈ pre, x.errorType ≠ "") ∧
        (enqueue cfg st e).1.buffer = (pre ++ post) ++ [e] ∧
        (enqueue cfg st e).1.buffer.length = st.buffer.length) ∧
    (st.buffer.length < (enqueue cfg st e).1.buffer.length →
      ∀ x ∈ st.buffer, x.errorType ≠ "") := by
  have hbuf : (enqueue cfg st e).1.buffer = dropOldestNonError st.buffer ++ [e] := by
    simp only [enqueue, if_pos hfull]
  refine ⟨?_, ?_, ?_⟩
  · intro hall
    rw [hbuf, dropOldestNonError_of_all_error st.buffer hall]
  · intro hex
    rcases dropOldestNonError_decomp st.buffer hex with ⟨pre, ev, post, hsplit, heve, hpre, hdrop⟩
    refine ⟨pre, ev, post, hsplit, heve, hpre, by rw [hbuf, hdrop], ?_⟩
    rw [hbuf, hdrop, hsplit]
    simp
  · intro hgrow
    by_contra hnot
    push_neg at hnot
    rcases hnot with ⟨x, hx, hxe⟩
    rcases dropOldestNonError_decomp st.buffer ⟨x, hx, hxe⟩ with
      ⟨pre, ev, post, hsplit, heve, hpre, hdrop⟩
    rw [hbuf, hdrop, hsplit] at hgrow
    simp at hgrow

/-- C6 witness: with capacity one and a buffer holding one error event,
enqueuing a routine event does not evict the error event; the buffer
overflows to hold both. -/
theorem C6_witness :
    (enqueue cfgC6 stC6 evR).1.buffer = stC6.buffer ++ [evR] :=
  (C6_eviction_preserves_errors cfgC6 stC6 evR (by decide)).1 (by decide)

/-- C7: an enqueue triggers an asynchronous flush exactly when the
post-append buffer has reached the batch threshold — in particular the
enqueue that brings the size to the threshold triggers one — and it
schedules a deferred flush timer exactly when none is pending; a
sequence of enqueues that keeps the buffer strictly below the threshold
triggers no flush at all, so no outbound request is issued before the
timer fires or flushNow is called (enqueue itself never performs
network requests). -/
theorem C7_batch_threshold (cfg : Config) (st : HState) (e : Event) (es : List Event) :
    ((enqueue cfg st e).2.2 = true ↔ cfg.batchSize ≤ (enqueue cfg st e).1.buffer.length) ∧
    ((enqueue cfg st e).2.1 = !st.timerSet) ∧
    ((enqueue cfg st e).1.timerSet = true) ∧
    (st.buffer.length + 1 = cfg.batchSize → st.buffer.length < cfg.maxBufferSize →
      (enqueue cfg st e).2.2 = true) ∧
    (cfg.batchSize ≤ cfg.maxBufferSize → st.buffer.length + es.length < cfg.batchSize →
      (enqueueMany cfg st es).2 = 0) := by
  refine ⟨?_, rfl, rfl, ?_, ?_⟩
  · simp only [enqueue]
    exact decide_eq_true_iff
  · intro hth hlt
    have hbuf := enqueue_buffer_of_not_full cfg st e hlt
    simp only [enqueue, if_neg (Nat.not_le.mpr hlt)]
    apply decide_eq_true
    simp only [List.length_append, List.length_cons, List.length_nil]
    omega
  · intro h1 h2
    exact (enqueueMany_no_trigger cfg es st h1 h2).1

/-- C7 witness: three enqueues from the fresh handler state with batch
threshold ten trigger no flush, the first schedules the timer, and an
enqueue into a nine-event buffer triggers the flush. -/
theorem C7_witness :
    (enqueueMany cfgEx (newHandlerState cfgEx) esW7).2 = 0 :=
  (C7_batch_threshold cfgEx (newHandlerState cfgEx) evR esW7).2.2.2.2
    (by decide) (by decide)

/-- C8: flushNow on an empty buffer is a no-op — the state is unchanged
and zero HTTP requests are issued; a flush delivers exactly the buffered
batch when there is one; and immediately after any flushAndSend the
buffer is empty, so a second call sends nothing, delivering the batch at
most once. -/
theorem C8_flush_idempotent (cfg : Config) (env : Nat → Nat × Attempt) (st : HState) :
    (st.buffer = [] → flushAndSend cfg env st = (st, 0)) ∧
    (∀ b, (flush cfg st).2 = some b → b = st.buffer ∧ st.buffer ≠ []) ∧
    ((flush cfg (flush cfg st).1).2 = none) ∧
    ((flushAndSend cfg env (flushAndSend cfg env st).1).2 = 0) := by
  have hempty : ∀ s : HState, s.buffer = [] → flushAndSend cfg env s = (s, 0) := by
    intro s hs
    simp only [flushAndSend, flush, if_pos hs]
  have hfb : (flushAndSend cfg env st).1.buffer = [] ∨
      (flushAndSend cfg env st).1 = st ∧ st.buffer = [] := by
    by_cases hb : st.buffer = []
    · right
      exact ⟨by rw [hempty st hb], hb⟩
    · left
      simp only [flushAndSend, flush, if_neg hb]
      rw [send_buffer]
  refine ⟨hempty st, ?_, ?_, ?_⟩
  · intro b hsome
    by_cases hb : st.buffer = []
    · simp [flush, if_pos hb] at hsome
    · simp only [flush, if_neg hb] at hsome
      exact ⟨(Option.some_inj.mp hsome).symm, hb⟩
  · by_cases hb : st.buffer = []
    · simp [flush, if_pos hb]
    · simp [flush, if_neg hb]
  · rcases hfb with h | ⟨h1, h2⟩
    · rw [hempty _ h]
    · rw [h1, hempty st h2]

/-- C8 witness: flushing the fresh empty state performs no request and
leaves the state unchanged. -/
theorem C8_witness :
    flushAndSend cfgEx env200 stEx = (stEx, 0) :=
  (C8_flush_idempotent cfgEx env200 stEx).1 rfl

/-- C9: when the (defaulted) baseline flush interval is at most one
minute, the adaptive interval starts at the baseline at construction and
every operation — enqueue, flush, every single response step of send and
every full run of the send retry loop — keeps it between the baseline
and one minute inclusive. -/
theorem C9_interval_bounds (cfg : Config)
    (h : (applyDefaults cfg).flushInterval ≤ minuteNs) :
    (newHandlerState cfg).flushInterval = (applyDefaults cfg).flushInterval ∧
    intervalInv (applyDefaults cfg) (newHandlerState cfg) ∧
    (∀ st e, intervalInv (applyDefaults cfg) st →
      intervalInv (applyDefaults cfg) (enqueue (applyDefaults cfg) st e).1) ∧
    (∀ st, intervalInv (applyDefaults cfg) st →
      intervalInv (applyDefaults cfg) (flush (applyDefaults cfg) st).1) ∧
    (∀ st now a, intervalInv (applyDefaults cfg) st →
      intervalInv (applyDefaults cfg) (stepResp (applyDefaults cfg) now a st).1) ∧
    (∀ env i st fuel, intervalInv (applyDefaults cfg) st →
      intervalInv (applyDefaults cfg) (sendFrom (applyDefaults cfg) env i st fuel).1) := by
  refine ⟨rfl, ⟨le_refl _, h⟩, ?_, ?_, ?_, ?_⟩
  · intro st e hst
    rcases hst with ⟨h1, h2⟩
    exact ⟨by rw [enqueue_flushInterval]; exact h1, by rw [enqueue_flushInterval]; exact h2⟩
  · intro st hst
    by_cases hb : st.buffer = []
    · simp only [flush, if_pos hb]
      exact hst
    · simp only [flush, if_neg hb]
      exact hst
  · intro st now a hst
    exact stepResp_interval (applyDefaults cfg) h now a st hst
  · intro env i st fuel hst
    exact sendFrom_interval (applyDefaults cfg) h env fuel i st hst

/-- C9 witness: the sample configuration has a five-second baseline, so
the fresh handler state starts at the baseline. -/
theorem C9_witness :
    (newHandlerState cfgEx).flushInterval = (applyDefaults cfgEx).flushInterval :=
  (C9_interval_bounds cfgEx (by decide)).1

/-- C10: in every state of the Shared Delivery State reachable from
construction through enqueue, flush and send, a pending flush timer
implies a non-empty buffer — an empty buffer never has a flush
scheduled. -/
theorem C10_timer_implies_nonempty (cfg : Config) (st : HState)
    (hr : Reachable cfg st) : st.timerSet = true → st.buffer ≠ [] := by
  induction hr with
  | init =>
      intro ht
      simp [newHandlerState] at ht
  | enq st0 e hr0 ih =>
      intro ht
      simp [enqueue]
  | fl st0 hr0 ih =>
      intro ht
      by_cases hb : st0.buffer = []
      · rw [flush, if_pos hb] at ht ⊢
        exact ih ht
      · rw [flush, if_neg hb] at ht
        simp at ht
  | snd st0 env i fuel hr0 ih =>
      intro ht
      rcases sendFrom_buffer_timer cfg env fuel i st0 with ⟨hbuf, htim⟩
      rw [hbuf]
      rw [htim] at ht
      exact ih ht

/-- C10 witness: after one enqueue from the fresh state the timer is
pending, and the theorem yields that the buffer is non-empty. -/
theorem C10_witness :
    ((enqueue cfgEx (newHandlerState cfgEx) evR).1).buffer ≠ [] :=
  C10_timer_implies_nonempty cfgEx (enqueue cfgEx (newHandlerState cfgEx) evR).1
    (Reachable.enq _ evR Reachable.init) (by decide)

/-- C1 counterexample: recording the error connection refused through
the package-global classifier yields a delivered event whose context map
does contain error_class and stack_trace as nested keys — the claim
states the delivered context does not contain them (they would be
hoisted to top-level fields, which the event shape of this variant does
not even have). -/
theorem C1_counterexample :
    ctxContains (errorEvent "Checkout failed" "2026-01-01T00:00:00Z"
        "connection refused" none true "handler_test.go" 72 (some "TestError")
        "goroutine 1 [running]:" [("order_id", GoVal.int 42)]).context
      "error_class" = true ∧
    ctxContains (errorEvent "Checkout failed" "2026-01-01T00:00:00Z"
        "connection refused" none true "handler_test.go" 72 (some "TestError")
        "goroutine 1 [running]:" [("order_id", GoVal.int 42)]).context
      "stack_trace" = true := by
  refine ⟨?_, ?_⟩ <;> decide

/-- C1 amended: the classifier stores error, error_class, error_file,
error_line, error_caller and stack_trace as nested keys of the context
map — they are not hoisted, and the delivered event of this variant has
no top-level error fields at all; the stored error_class and stack_trace
values are the non-empty classification results. Only the struct-based
handler variant hoists, and it hoists only error_type (and
error_location): the string value is moved to the top-level field and
the context key is deleted, so that pair never appears in both places. -/
theorem C1_error_fields_nested (message ts errMsg : String) (errClassRaw : Option String)
    (callerOk : Bool) (fileBase : String) (line : Int) (fnLast : Option String)
    (stack : String) (ctx0 : Ctx)
    (hstack : stack ≠ "") (hclass : classOf errClassRaw ≠ "") :
    ctxGet (errorEvent message ts errMsg errClassRaw callerOk fileBase line fnLast
        stack ctx0).context "stack_trace" = some (GoVal.str stack) ∧
    ctxGet (errorEvent message ts errMsg errClassRaw callerOk fileBase line fnLast
        stack ctx0).context "error_class" = some (GoVal.str (classOf errClassRaw)) ∧
    ctxContains (errorEvent message ts errMsg errClassRaw callerOk fileBase line fnLast
        stack ctx0).context "error" = true ∧
    (callerOk = true →
      ctxContains (errorEvent message ts errMsg errClassRaw callerOk fileBase line fnLast
          stack ctx0).context "error_file" = true ∧
      ctxContains (errorEvent message ts errMsg errClassRaw callerOk fileBase line fnLast
          stack ctx0).context "error_line" = true) ∧
    stack ≠ "" ∧ classOf errClassRaw ≠ "" ∧
    (∀ c s, ctxGet c "error_type" = some (GoVal.str s) →
      (extractErrorInfo c).2.1 = s ∧
      ctxContains (extractErrorInfo c).1 "error_type" = false) := by
  refine ⟨?_, ?_, ?_, ?_, hstack, hclass, fun c s hcs => extract_hoists c s hcs⟩
  · simp only [errorEvent]
    exact ctxGet_set_self _ _ _
  · simp only [errorEvent]
    rw [ctxGet_set_ne _ _ _ _ (by decide)]
    cases callerOk with
    | false =>
        simp only [Bool.false_eq_true, if_false]
        exact ctxGet_set_self _ _ _
    | true =>
        simp only [if_true]
        cases fnLast with
        | none =>
            rw [ctxGet_set_ne _ _ _ _ (by decide), ctxGet_set_ne _ _ _ _ (by decide)]
            exact ctxGet_set_self _ _ _
        | some f =>
            rw [ctxGet_set_ne _ _ _ _ (by decide), ctxGet_set_ne _ _ _ _ (by decide),
              ctxGet_set_ne _ _ _ _ (by decide)]
            exact ctxGet_set_self _ _ _
  · simp only [errorEvent, ctxContains]
    rw [ctxGet_set_ne _ _ _ _ (by decide)]
    cases callerOk with
    | false =>
        simp only [Bool.false_eq_true, if_false]
        rw [ctxGet_set_ne _ _ _ _ (by decide), ctxGet_set_self]
        rfl
    | true =>
        simp only [if_true]
        cases fnLast with
        | none =>
            rw [ctxGet_set_ne _ _ _ _ (by decide), ctxGet_set_ne _ _ _ _ (by decide),
              ctxGet_set_ne _ _ _ _ (by decide), ctxGet_set_self]
            rfl
        | some f =>
            rw [ctxGet_set_ne _ _ _ _ (by decide), ctxGet_set_ne _ _ _ _ (by decide),
              ctxGet_set_ne _ _ _ _ (by decide), ctxGet_set_ne _ _ _ _ (by decide),
              ctxGet_set_self]
            rfl
  · intro hco
    subst hco
    constructor
    · simp only [errorEvent, ctxContains, if_true]
      rw [ctxGet_set_ne _ _ _ _ (by decide)]
      cases fnLast with
      | none =>
          rw [ctxGet_set_ne _ _ _ _ (by decide), ctxGet_set_self]
          rfl
      | some f =>
          rw [ctxGet_set_ne _ _ _ _ (by decide), ctxGet_set_ne _ _ _ _ (by decide),
            ctxGet_set_self]
          rfl
    · simp only [errorEvent, ctxContains, if_true]
      rw [ctxGet_set_ne _ _ _ _ (by decide)]
      cases fnLast with
      | none =>
          rw [ctxGet_set_self]
          rfl
      | some f =>
          rw [ctxGet_set_ne _ _ _ _ (by decide), ctxGet_set_self]
          rfl

/-- C1 witness: the classification of a concrete connection-refused
error stores a non-empty class and stack capture inside the context. -/
theorem C1_witness :
    ctxGet (errorEvent "Checkout failed" "2026-01-01T00:00:00Z"
        "connection refused" none true "client.go" 10 none
        "goroutine 1 [running]:" []).context "stack_trace" =
      some (GoVal.str "goroutine 1 [running]:") :=
  (C1_error_fields_nested "Checkout failed" "2026-01-01T00:00:00Z"
    "connection refused" none true "client.go" 10 none
    "goroutine 1 [running]:" [] (by decide) (by decide)).1

end LogNorth
